import Mathlib

/-!
Verification of the Countdown milestone tracker (`src/index.tsx`).

The development shallowly embeds the pure computational core of the
application: the countdown decomposition (`useCountdown`), the per-milestone
and aggregate progress computations, active-milestone selection, milestone
normalization, import/export, the one-shot local-to-remote migration, and
status toggling.

Conventions of the embedding:
* JS `number` arithmetic on the millisecond timestamps involved is embedded
  as exact arithmetic over `ℚ`: all inputs are integral millisecond counts
  in the representable date range, where the double-precision divisions used
  by the source stay far too close to their exact values for a `Math.floor`
  or comparison to differ from the exact-arithmetic result.  `Math.floor`
  is `Int.floor`, JS `%` (on the nonnegative operands that occur) is
  `jsMod`, and `Math.round` is `jsRound`.
* `Date.now().toString()` and `new Date().toISOString()` are host inputs
  and appear as explicit parameters (`nowId`, `nowIso`).
* JS falsy-defaulting `a || b` on string-or-missing fields is `jsOr`.
* `Array.prototype.sort` (stable per ES2019) with the numeric comparators of
  the source is embedded as `List.insertionSort` with the corresponding `≤`
  relation, which computes the same (unique) stable sort.
-/

namespace Countdown

/-- JS `input.f || default` for a string field that may be `undefined`:
`undefined` and the empty string are falsy, any other string is kept. -/
def jsOr (v : Option String) (d : String) : String :=
  match v with
  | none => d
  | some s => if s = "" then d else s

/-- JS `%` on rationals, for a positive modulus and the nonnegative dividends
that occur in `useCountdown` (where JS `%` agrees with the floor-based
remainder). -/
def jsMod (x m : ℚ) : ℚ :=
  x - m * (⌊x / m⌋ : ℚ)

/-- JS `Math.round`: round half toward positive infinity. -/
def jsRound (x : ℚ) : ℤ :=
  ⌊x + 1 / 2⌋

/-- Result record of `useCountdown` (src/index.tsx:148-167). -/
structure CountdownResult where
  days : ℤ
  hours : ℤ
  minutes : ℤ
  seconds : ℤ
  totalMs : ℚ
  isPast : Bool
deriving DecidableEq, Repr

/-- The pure countdown computation of the `useCountdown` hook
(src/index.tsx:156-166), with the parsed target time and the sampled clock
as explicit millisecond arguments:

    const diff = target - now;
    if (diff <= 0) return { days: 0, hours: 0, minutes: 0, seconds: 0, totalMs: 0, isPast: true };
    const days = Math.floor(diff / (1000 * 60 * 60 * 24));
    const hours = Math.floor((diff / (1000 * 60 * 60)) % 24);
    const minutes = Math.floor((diff / 1000 / 60) % 60);
    const seconds = Math.floor((diff / 1000) % 60);
    return { days, hours, minutes, seconds, totalMs: diff, isPast: false };
-/
def useCountdown (target now : ℤ) : CountdownResult :=
  let diff : ℚ := (target : ℚ) - (now : ℚ)
  if diff ≤ 0 then
    { days := 0, hours := 0, minutes := 0, seconds := 0, totalMs := 0, isPast := true }
  else
    { days := ⌊diff / (1000 * 60 * 60 * 24)⌋
      hours := ⌊jsMod (diff / (1000 * 60 * 60)) 24⌋
      minutes := ⌊jsMod (diff / 1000 / 60) 60⌋
      seconds := ⌊jsMod (diff / 1000) 60⌋
      totalMs := diff
      isPast := false }

/-- Modelled from the spec's words (§4.2), the reference countdown
decomposition: `remaining = targetTime − now` in seconds; if `remaining ≤ 0`
all fields are zero and the "past" flag is set; otherwise
days = `⌊remaining/86400⌋`, hours = `⌊remaining/3600⌋ mod 24`,
minutes = `⌊remaining/60⌋ mod 60`, seconds = `⌊remaining⌋ mod 60`.
Returns `(days, hours, minutes, seconds, isPast)`. -/
def specCountdownFields (target now : ℤ) : ℤ × ℤ × ℤ × ℤ × Bool :=
  let remaining : ℚ := ((target : ℚ) - (now : ℚ)) / 1000
  if remaining ≤ 0 then (0, 0, 0, 0, true)
  else (⌊remaining / 86400⌋, ⌊remaining / 3600⌋ % 24, ⌊remaining / 60⌋ % 60,
    ⌊remaining⌋ % 60, false)

/-- The per-milestone progress percentage of `MilestoneCircle`
(src/index.tsx:432-439); `Focus` computes the identical expression for its
active milestone (src/index.tsx:626-634).  `start`/`end` are the parsed
`createdAt` and `datetimeISO` of the milestone, and `totalMs` comes from
`useCountdown` at the same sampled clock:

    const total = end - start;
    if (total <= 0) return 100;
    const elapsed = total - totalMs;
    return Math.min(100, Math.max(0, (elapsed / total) * 100));
-/
def percentage (createdAt target now : ℤ) : ℚ :=
  let start : ℚ := (createdAt : ℚ)
  let endTime : ℚ := (target : ℚ)
  let total := endTime - start
  if total ≤ 0 then 100
  else
    let elapsed := total - (useCountdown target now).totalMs
    min 100 (max 0 (elapsed / total * 100))

/-- Modelled from the spec's words (§4.2), the reference progress fraction:
`window = targetTime − createdAt`, `remaining = targetTime − now`,
`p = clamp((window − remaining)/window, 0, 100)` expressed as a percentage,
with `p` defined as `100` when `window ≤ 0`. -/
def specProgress (createdAt target now : ℤ) : ℚ :=
  let window : ℚ := (target : ℚ) - (createdAt : ℚ)
  let remaining : ℚ := (target : ℚ) - (now : ℚ)
  if window ≤ 0 then 100
  else min 100 (max 0 ((window - remaining) / window * 100))

/-- The `Milestone` entity (src/index.tsx:56-66), in the shape produced by
`normalizeMilestone` (the optional `location` field is never read or written
by any operation modelled here and is omitted).  TypeScript declares `icon`
and `status` with enumerated string types, but the `as`-casts in
`normalizeMilestone` perform no runtime check, so at runtime any string can
occupy them; the embedding therefore uses `String` for both. -/
structure Milestone where
  id : String
  title : String
  description : String
  datetimeISO : String
  icon : String
  imageUrl : String
  status : String
  createdAt : String
deriving DecidableEq, Repr

/-- A milestone document as stored remotely: the entity minus its `id`
(`handleSave` and the migration strip the identifier before writing). -/
structure MilestoneData where
  title : String
  description : String
  datetimeISO : String
  icon : String
  imageUrl : String
  status : String
  createdAt : String
deriving DecidableEq, Repr

/-- `const { id, ...milestoneData } = m` — the entity with its identifier
stripped. -/
def stripId (m : Milestone) : MilestoneData :=
  { title := m.title, description := m.description, datetimeISO := m.datetimeISO,
    icon := m.icon, imageUrl := m.imageUrl, status := m.status, createdAt := m.createdAt }

/-- A `Partial<Milestone>` input record: every field may be absent.  (As with
`Milestone`, `icon` and `status` are strings at runtime.) -/
structure PartialMilestone where
  id : Option String := none
  title : Option String := none
  description : Option String := none
  datetimeISO : Option String := none
  icon : Option String := none
  imageUrl : Option String := none
  status : Option String := none
  createdAt : Option String := none
deriving DecidableEq, Repr

/-- `fallbackImageUrl` (src/index.tsx:177). -/
def fallbackImageUrl : String := "/images/placeholder.svg"

/-- `normalizeMilestone` (src/index.tsx:181-190).  `nowId` stands for the
host's `Date.now().toString()` and `nowIso` for `new Date().toISOString()`:

    id: input.id || Date.now().toString(),
    title: input.title || 'Nuevo hito',
    description: input.description || '',
    datetimeISO: input.datetimeISO || '',
    icon: (input.icon || 'flag') as IconName,
    imageUrl: input.imageUrl || fallbackImageUrl,
    status: (input.status || 'upcoming') as MilestoneStatus,
    createdAt: input.createdAt || new Date().toISOString()
-/
def normalizeMilestone (nowId nowIso : String) (input : PartialMilestone) : Milestone :=
  { id := jsOr input.id nowId
    title := jsOr input.title "Nuevo hito"
    description := jsOr input.description ""
    datetimeISO := jsOr input.datetimeISO ""
    icon := jsOr input.icon "flag"
    imageUrl := jsOr input.imageUrl fallbackImageUrl
    status := jsOr input.status "upcoming"
    createdAt := jsOr input.createdAt nowIso }

/-- Modelled from the spec: §3 requires `targetTime` and `createdAt` to "be
parseable as timestamps".  The host's full `Date` parser is not part of the
repository; the embedding models only the necessary condition that a
parseable timestamp is a nonempty string (the host parser maps the empty
string to an invalid date). -/
def parseableTimestamp (s : String) : Bool := !s.isEmpty

/-- The fresh-milestone template behind the "Add New" button
(src/index.tsx:805-814); its `status` is `'upcoming'`. -/
def newMilestoneTemplate (nowId nowIso : String) : Milestone :=
  { id := nowId, title := "", description := "", datetimeISO := "",
    icon := "flag", imageUrl := fallbackImageUrl, status := "upcoming",
    createdAt := nowIso }

/-- A write issued against the remote store. -/
inductive StoreWrite where
  | update (id : String) (data : MilestoneData)
  | create (data : MilestoneData)
deriving DecidableEq, Repr

/-- The document carried by a `StoreWrite`. -/
def StoreWrite.data : StoreWrite → MilestoneData
  | .update _ d => d
  | .create d => d

/-- The store write performed by `handleSave` (src/index.tsx:701-720): the
edited entity minus its `id` is written, as an update when the id is already
in the set and as a creation otherwise. -/
def handleSave (milestones : List Milestone) (isEditing : Milestone) : StoreWrite :=
  if (milestones.find? (fun m => m.id == isEditing.id)).isSome then
    .update isEditing.id (stripId isEditing)
  else
    .create (stripId isEditing)

/-- `toggleComplete` (src/index.tsx:946-958): look the id up in the current
set; when absent, return without any store call; when found, issue one
status update flipping `'completed'` to `'upcoming'` and anything else to
`'completed'`.  The result is the update call performed, `(id, new status)`,
or `none` for no call. -/
def toggleComplete (milestones : List Milestone) (id : String) :
    Option (String × String) :=
  match milestones.find? (fun m => m.id == id) with
  | none => none
  | some milestone =>
    some (id, if milestone.status == "completed" then "upcoming" else "completed")

/-- Applying a status-update push from the store to the in-memory set (the
set itself is only ever replaced by subscription pushes; a `none` call
leaves it as is). -/
def applyToggle (milestones : List Milestone) (call : Option (String × String)) :
    List Milestone :=
  match call with
  | none => milestones
  | some (id, st) =>
    milestones.map (fun m => if m.id = id then { m with status := st } else m)

/-- Parsed JSON values, the shape of `JSON.parse` output.  Objects carry
their fields in order; `JSON.parse` output has no repeated keys. -/
inductive JsonValue where
  | null
  | bool (b : Bool)
  | num (q : ℚ)
  | str (s : String)
  | arr (items : List JsonValue)
  | obj (fields : List (String × JsonValue))

/-- JS property access `v.f` on a parsed JSON value, restricted to string
results: the claims checked here only ever read fields that hold strings
(export emits only strings), so a missing or non-string field is modelled as
absent. -/
def jsonStringField (v : JsonValue) (name : String) : Option String :=
  match v with
  | .obj fields =>
    match fields.lookup name with
    | some (.str s) => some s
    | _ => none
  | _ => none

/-- Reading an entity-like JSON record into a `Partial<Milestone>` (the
untyped `item` handed to `normalizeMilestone` by `handleImport`). -/
def toPartial (v : JsonValue) : PartialMilestone :=
  { id := jsonStringField v "id", title := jsonStringField v "title",
    description := jsonStringField v "description",
    datetimeISO := jsonStringField v "datetimeISO",
    icon := jsonStringField v "icon", imageUrl := jsonStringField v "imageUrl",
    status := jsonStringField v "status", createdAt := jsonStringField v "createdAt" }

/-- A `Milestone` as serialized by `JSON.stringify` inside `handleExport`. -/
def milestoneToJson (m : Milestone) : JsonValue :=
  .obj [("id", .str m.id), ("title", .str m.title),
    ("description", .str m.description), ("datetimeISO", .str m.datetimeISO),
    ("icon", .str m.icon), ("imageUrl", .str m.imageUrl),
    ("status", .str m.status), ("createdAt", .str m.createdAt)]

/-- `handleExport` (src/index.tsx:733-735): the downloaded document is the
container object `{ milestones }` holding the full current set. -/
def handleExport (milestones : List Milestone) : JsonValue :=
  .obj [("milestones", .arr (milestones.map milestoneToJson))]

/-- `const data = Array.isArray(parsed) ? parsed : parsed?.milestones`
followed by the `Array.isArray(data)` check (src/index.tsx:742-743): the
accepted record sequence, or `none` when the payload has any other shape
(property access on `null` short-circuits to `undefined`; on numbers,
strings and booleans it yields `undefined`). -/
def jsGetMilestones : JsonValue → Option (List JsonValue)
  | .arr items => some items
  | .obj fields =>
    match fields.lookup "milestones" with
    | some (.arr items) => some items
    | _ => none
  | _ => none

/-- `handleImport` (src/index.tsx:737-755) from the parsed payload on:
shape-check the payload, normalize each record, then `addDoc` each
normalized record (spread whole, id included).  Result: the documents
created in the store, and the user-visible error message if the payload was
rejected — in which case the loop was never reached and no document was
created.  (A file that fails `JSON.parse` takes the same catch path with
zero writes.)  `nowId`/`nowIso` are the host clock values as in
`normalizeMilestone`. -/
def handleImport (parsed : JsonValue) (nowId nowIso : String) :
    List Milestone × Option String :=
  match jsGetMilestones parsed with
  | none => ([], some "No se pudo importar el archivo. Verifica que sea un backup válido.")
  | some data =>
    (data.map (fun item => normalizeMilestone nowId nowIso (toPartial item)), none)

/-- Modelled from the spec's words (§4.4): an import payload is accepted
exactly when it is a bare array, or a container object whose `milestones`
field is an array. -/
def specImportAccepted : JsonValue → Prop
  | .arr _ => True
  | .obj fields => ∃ items, fields.lookup "milestones" = some (.arr items)
  | _ => False

/-- `const { id, ...data } = m` on a parsed JSON record: drop its `id` field.
(Object spread of a non-null primitive yields the empty object; a literal
`null` entry would instead throw inside the surrounding `try`, aborting the
loop exactly like a failed creation, which `failAt` models.) -/
def jsonStripId : JsonValue → JsonValue
  | .obj fields => .obj (fields.filter (fun f => f.1 ≠ "id"))
  | _ => .obj []

/-- What the migration finds under the local-cache data key. -/
inductive LocalData where
  | absent
  | unparsable
  | parsed (v : JsonValue)

/-- `handleMigration` (src/index.tsx:919-941).  `flag` is whether the
sentinel key `firebase_migrated_v_final_3` is already set; `failAt` models
the fallible sequential creations: `some k` means the `k`-th `addDoc` throws
(the loop aborts there inside the `try`), `none` means all succeed.
Result: the documents created in the remote store, and the sentinel value
after the run.  When the flag is set nothing at all happens; when unset the
sentinel is written unconditionally after the attempt — also when parsing
failed or a creation threw, since the `setItem` sits after the
`try`/`catch`. -/
def handleMigration (flag : Bool) (localData : LocalData) (failAt : Option ℕ) :
    List JsonValue × Bool :=
  if flag then ([], flag)
  else
    let created :=
      match localData with
      | .absent => []
      | .unparsable => []
      | .parsed v =>
        match v with
        | .arr items =>
          if items.length > 0 then
            (items.map jsonStripId).take (failAt.getD items.length)
          else []
        | _ => []
    (created, true)

/-- A milestone as consumed by the temporal-derivation code: `time` is
`new Date(m.datetimeISO).getTime()` and `createdAt` is
`new Date(m.createdAt).getTime()`, both in integral milliseconds (the
embedding covers milestones whose timestamps parse; the spec excludes
unparsable ones from time-ordering). -/
structure TimedMilestone where
  time : ℤ
  createdAt : ℤ
  status : String
deriving DecidableEq, Repr, Inhabited

/-- The `≤` ordering on an integer key, the relation realized by the numeric
subtraction comparators passed to `Array.prototype.sort` in the source. -/
def keyLE (key : TimedMilestone → ℤ) : TimedMilestone → TimedMilestone → Prop :=
  fun a b => key a ≤ key b

instance (key : TimedMilestone → ℤ) : DecidableRel (keyLE key) :=
  fun a b => inferInstanceAs (Decidable (key a ≤ key b))

instance (key : TimedMilestone → ℤ) : IsTotal TimedMilestone (keyLE key) :=
  ⟨fun a b => Int.le_total (key a) (key b)⟩

instance (key : TimedMilestone → ℤ) : IsTrans TimedMilestone (keyLE key) :=
  ⟨fun _ _ _ hab hbc => le_trans hab hbc⟩

/-- `[...list].sort((a, b) => key(a) - key(b))`: the stable sort by an
integer key, embedded as insertion sort (the stable sort by a total
preorder is unique, so this is the list ES2019 `sort` returns). -/
def sortBy (key : TimedMilestone → ℤ) (l : List TimedMilestone) :
    List TimedMilestone :=
  List.insertionSort (keyLE key) l

/-- The active-milestone filter
`m => m.status !== 'completed' && new Date(m.datetimeISO).getTime() > now`
(src/index.tsx:492 and 620). -/
def eligibleB (now : ℤ) (m : TimedMilestone) : Bool :=
  m.status != "completed" && decide (now < m.time)

/-- `Dashboard`'s active milestone (src/index.tsx:487-494): the timeline
sorted by target time, filtered to pending future milestones, first element
(`future[0] || null`). -/
def activeDashboard (milestones : List TimedMilestone) (now : ℤ) :
    Option TimedMilestone :=
  ((sortBy (fun m => m.time) milestones).filter (eligibleB now)).head?

/-- `Focus`'s active milestone (src/index.tsx:618-622): filter to pending
future milestones, sort by target time, first element. -/
def activeFocus (milestones : List TimedMilestone) (now : ℤ) :
    Option TimedMilestone :=
  (sortBy (fun m => m.time) (milestones.filter (eligibleB now))).head?

/-- Modelled from the spec's words (§4.2): the first element of the list (in
input order) achieving the minimal key — "select the one with the smallest
`targetTime`; ties broken by stable input order". -/
def firstMinBy (key : TimedMilestone → ℤ) : List TimedMilestone → Option TimedMilestone
  | [] => none
  | x :: xs =>
    match firstMinBy key xs with
    | none => some x
    | some a => if key a < key x then some a else some x

/-- Modelled from the spec's words (§4.2): the active milestone is the
earliest-by-`targetTime` milestone among those with `status ≠ completed` and
`targetTime > now`, ties broken by input order; `none` when no milestone
qualifies. -/
def specActiveMilestone (milestones : List TimedMilestone) (now : ℤ) :
    Option TimedMilestone :=
  firstMinBy (fun m => m.time) (milestones.filter (eligibleB now))

/-- The record computed by `Dashboard`'s `stats` memo. -/
structure Stats where
  total : ℕ
  completed : ℕ
  percentage : ℤ
  lastDate : Option ℤ
deriving DecidableEq, Repr

/-- `Dashboard.stats` (src/index.tsx:496-520).  Empty set: all zeros and no
last date.  Otherwise `startTime` is the `createdAt` of the head of the set
sorted by `createdAt`, `endTime` the `datetimeISO` time of the last element
of the timeline sorted by `datetimeISO`, and

    let percentage = 0;
    if (totalDuration > 0) {
      const elapsed = now - startTime;
      percentage = Math.min(100, Math.max(0, Math.round((elapsed / totalDuration) * 100)));
    } else { percentage = 100; }

(the `getD` defaults are never reached: both sorted lists are nonempty). -/
def statsOf (milestones : List TimedMilestone) (now : ℤ) : Stats :=
  match milestones with
  | [] => { total := 0, completed := 0, percentage := 0, lastDate := none }
  | x :: xs =>
    let ms := x :: xs
    let sortedTimeline := sortBy (fun m => m.time) ms
    let sortedByCreated := sortBy (fun m => m.createdAt) ms
    let lastEvent := sortedTimeline.getLast?.getD x
    let startTime := (sortedByCreated.head?.getD x).createdAt
    let endTime := lastEvent.time
    let totalDuration := endTime - startTime
    let pct : ℤ :=
      if 0 < totalDuration then
        min 100 (max 0 (jsRound (((now : ℚ) - (startTime : ℚ)) / (totalDuration : ℚ) * 100)))
      else 100
    { total := ms.length,
      completed := (ms.filter (fun m => m.status == "completed")).length,
      percentage := pct,
      lastDate := some lastEvent.time }

/-- Modelled from the spec's words (§4.2) as amended: aggregate progress over
the window from the earliest `createdAt` to the latest `targetTime` uses the
per-milestone fraction with the percentage rounded to the nearest integer
before clamping, and is `100` when the window is not positive. -/
def specAggregatePercentage (start endT now : ℤ) : ℤ :=
  let window : ℚ := ((endT : ℚ) - (start : ℚ))
  let remaining : ℚ := ((endT : ℚ) - (now : ℚ))
  if window ≤ 0 then 100
  else min 100 (max 0 (jsRound ((window - remaining) / window * 100)))

/-! ### Helper lemmas -/

lemma floor_intCast_div (a : ℤ) (n : ℕ) : ⌊(a : ℚ) / (n : ℚ)⌋ = a / (n : ℤ) :=
  Rat.floor_intCast_div_natCast a n

lemma floor_jsMod (x : ℚ) (m : ℤ) : ⌊jsMod x (m : ℚ)⌋ = ⌊x⌋ - m * ⌊x / (m : ℚ)⌋ := by
  unfold jsMod
  rw [show (m:ℚ) * (⌊x/(m:ℚ)⌋:ℚ) = ((m * ⌊x/(m:ℚ)⌋ : ℤ):ℚ) by push_cast; ring,
    Int.floor_sub_int]

/-! ### C1: the countdown computation matches its reference definition -/

/-- C1: for every target time and every now, the countdown computed by
`useCountdown` equals the spec's reference decomposition — when
`remaining = target − now ≤ 0` all fields are zero and the past flag is set,
otherwise the flag is clear and days/hours/minutes/seconds follow the
floor/mod formulas of §4.2 — and at `remaining = 3661 s` the result is
`{days: 0, hours: 1, minutes: 1, seconds: 1}`, not past. -/
theorem countdown_matches_reference (target now : ℤ) :
    (((useCountdown target now).days, (useCountdown target now).hours,
      (useCountdown target now).minutes, (useCountdown target now).seconds,
      (useCountdown target now).isPast) = specCountdownFields target now)
    ∧ useCountdown (now + 3661 * 1000) now =
      { days := 0, hours := 1, minutes := 1, seconds := 1,
        totalMs := 3661000, isPast := false } := by
  constructor
  · have hcast : (target : ℚ) - (now : ℚ) = ((target - now : ℤ) : ℚ) := by push_cast; ring
    unfold useCountdown specCountdownFields
    simp only [hcast]
    rcases le_or_lt (target - now) 0 with h | h
    · have h1 : ((target - now : ℤ) : ℚ) ≤ 0 := by exact_mod_cast h
      have h2 : ((target - now : ℤ) : ℚ) / 1000 ≤ 0 :=
        div_nonpos_of_nonpos_of_nonneg h1 (by norm_num)
      rw [if_pos h1, if_pos h2]
    · have h1 : ¬ ((target - now : ℤ) : ℚ) ≤ 0 := by
        rw [not_le]
        exact_mod_cast h
      have h2 : ¬ ((target - now : ℤ) : ℚ) / 1000 ≤ 0 := by
        rw [not_le]
        apply div_pos (by exact_mod_cast h) (by norm_num)
      rw [if_neg h1, if_neg h2]
      set d : ℤ := target - now with hd
      have c86400000 : (1000*60*60*24 : ℚ) = ((86400000:ℕ):ℚ) := by norm_num
      have c3600000 : (1000*60*60 : ℚ) = ((3600000:ℕ):ℚ) := by norm_num
      have hdays : (((d:ℚ))/1000)/86400 = (d:ℚ)/((86400000:ℕ):ℚ) := by
        rw [div_div]; norm_num
      have hhrs : (((d:ℚ))/1000)/3600 = (d:ℚ)/((3600000:ℕ):ℚ) := by
        rw [div_div]; norm_num
      have hmin : (((d:ℚ))/1000)/60 = (d:ℚ)/((60000:ℕ):ℚ) := by
        rw [div_div]; norm_num
      have hsec : ((d:ℚ))/1000 = (d:ℚ)/((1000:ℕ):ℚ) := by norm_num
      simp only [Prod.mk.injEq]
      refine ⟨?_, ?_, ?_, ?_, trivial⟩
      · rw [c86400000, hdays, floor_intCast_div]
      · rw [c3600000, hhrs]
        have h24 : ⌊jsMod ((d:ℚ)/((3600000:ℕ):ℚ)) 24⌋
            = ⌊(d:ℚ)/((3600000:ℕ):ℚ)⌋ - 24 * ⌊((d:ℚ)/((3600000:ℕ):ℚ))/((24:ℤ):ℚ)⌋ := by
          have := floor_jsMod ((d:ℚ)/((3600000:ℕ):ℚ)) 24
          push_cast at this ⊢
          exact this
        rw [h24]
        have hq : ((d:ℚ)/((3600000:ℕ):ℚ))/((24:ℤ):ℚ) = (d:ℚ)/((86400000:ℕ):ℚ) := by
          rw [div_div]; push_cast; norm_num
        rw [hq, floor_intCast_div, floor_intCast_div]
        push_cast
        omega
      · rw [hmin]
        have h60 : ⌊jsMod ((d:ℚ)/((60000:ℕ):ℚ)) 60⌋
            = ⌊(d:ℚ)/((60000:ℕ):ℚ)⌋ - 60 * ⌊((d:ℚ)/((60000:ℕ):ℚ))/((60:ℤ):ℚ)⌋ := by
          have := floor_jsMod ((d:ℚ)/((60000:ℕ):ℚ)) 60
          push_cast at this ⊢
          exact this
        rw [h60]
        have hq : ((d:ℚ)/((60000:ℕ):ℚ))/((60:ℤ):ℚ) = (d:ℚ)/((3600000:ℕ):ℚ) := by
          rw [div_div]; push_cast; norm_num
        rw [hq, floor_intCast_div, floor_intCast_div]
        push_cast
        omega
      · rw [hsec]
        have h60 : ⌊jsMod ((d:ℚ)/((1000:ℕ):ℚ)) 60⌋
            = ⌊(d:ℚ)/((1000:ℕ):ℚ)⌋ - 60 * ⌊((d:ℚ)/((1000:ℕ):ℚ))/((60:ℤ):ℚ)⌋ := by
          have := floor_jsMod ((d:ℚ)/((1000:ℕ):ℚ)) 60
          push_cast at this ⊢
          exact this
        rw [h60]
        have hq : ((d:ℚ)/((1000:ℕ):ℚ))/((60:ℤ):ℚ) = (d:ℚ)/((60000:ℕ):ℚ) := by
          rw [div_div]; push_cast; norm_num
        rw [hq, floor_intCast_div, floor_intCast_div]
        push_cast
        omega
  · have hdiff : ((now + 3661*1000 : ℤ) : ℚ) - (now : ℚ) = 3661000 := by push_cast; ring
    unfold useCountdown
    rw [hdiff, if_neg (by norm_num)]
    have i1 : ⌊((3661000:ℚ)/(1000*60*60))/24⌋ = 0 := by
      rw [Int.floor_eq_iff] ; norm_num
    have i2 : ⌊((3661000:ℚ)/1000/60)/60⌋ = 1 := by
      rw [Int.floor_eq_iff] ; norm_num
    have i3 : ⌊((3661000:ℚ)/1000)/60⌋ = 61 := by
      rw [Int.floor_eq_iff] ; norm_num
    simp only [CountdownResult.mk.injEq, jsMod, i1, i2, i3]
    refine ⟨?_, ?_, ?_, ?_, trivial, trivial⟩
    · rw [Int.floor_eq_iff] ; norm_num
    · rw [Int.floor_eq_iff] ; norm_num
    · rw [Int.floor_eq_iff] ; norm_num
    · rw [Int.floor_eq_iff] ; norm_num

/-! ### C3: per-milestone progress fraction -/

/-- C3: for every milestone and every now, the per-milestone progress value
computed by the components equals the spec's
`clamp((window − remaining)/window, 0, 100)`-as-a-percentage formula
(window = targetTime − createdAt), hence always lies in [0, 100]; it is 0
when `now < createdAt` (in the non-degenerate case `window > 0`), and is
defined as 100 when `window ≤ 0`, with no division by zero. -/
theorem progress_fraction_spec (createdAt target now : ℤ) :
    percentage createdAt target now = specProgress createdAt target now
  ∧ 0 ≤ percentage createdAt target now
  ∧ percentage createdAt target now ≤ 100
  ∧ ((target : ℚ) - (createdAt : ℚ) ≤ 0 → percentage createdAt target now = 100)
  ∧ (0 < (target : ℚ) - (createdAt : ℚ) → now < createdAt →
      percentage createdAt target now = 0) := by
  have hmain : percentage createdAt target now = specProgress createdAt target now := by
    unfold percentage specProgress useCountdown
    rcases le_or_lt ((target:ℚ) - (createdAt:ℚ)) 0 with hw | hw
    · rw [if_pos hw, if_pos hw]
    · rw [if_neg (not_le.mpr hw), if_neg (not_le.mpr hw)]
      rcases le_or_lt ((target:ℚ) - (now:ℚ)) 0 with hr | hr
      · rw [if_pos hr]
        dsimp only
        have hT : (target:ℚ) - (createdAt:ℚ) ≠ 0 := ne_of_gt hw
        have l1 : ((target:ℚ) - (createdAt:ℚ) - 0) / ((target:ℚ) - (createdAt:ℚ)) * 100
            = 100 := by
          rw [sub_zero, div_self hT, one_mul]
        rw [l1]
        have r1 : (100:ℚ) ≤ ((target:ℚ) - (createdAt:ℚ) - ((target:ℚ) - (now:ℚ)))
            / ((target:ℚ) - (createdAt:ℚ)) * 100 := by
          have h1 : (1:ℚ) ≤ ((target:ℚ) - (createdAt:ℚ) - ((target:ℚ) - (now:ℚ)))
              / ((target:ℚ) - (createdAt:ℚ)) := by
            rw [one_le_div hw]
            linarith
          linarith
        rw [max_eq_right (by norm_num), min_eq_left (by norm_num),
          max_eq_right (by linarith), min_eq_left r1]
      · rw [if_neg (not_le.mpr hr)]
  have hb : 0 ≤ specProgress createdAt target now
      ∧ specProgress createdAt target now ≤ 100 := by
    unfold specProgress
    rcases le_or_lt ((target:ℚ) - (createdAt:ℚ)) 0 with hw | hw
    · rw [if_pos hw]
      norm_num
    · rw [if_neg (not_le.mpr hw)]
      exact ⟨le_min (by norm_num) (le_max_left 0 _), min_le_left _ _⟩
  refine ⟨hmain, ?_, ?_, ?_, ?_⟩
  · rw [hmain]; exact hb.1
  · rw [hmain]; exact hb.2
  · intro hw
    rw [hmain]
    unfold specProgress
    rw [if_pos hw]
  · intro hw hnow
    rw [hmain]
    unfold specProgress
    rw [if_neg (not_le.mpr hw)]
    have hlt : ((target:ℚ) - (createdAt:ℚ) - ((target:ℚ) - (now:ℚ)))
        / ((target:ℚ) - (createdAt:ℚ)) * 100 < 0 := by
      apply mul_neg_of_neg_of_pos _ (by norm_num)
      apply div_neg_of_neg_of_pos _ hw
      have : ((now:ℚ)) < (createdAt:ℚ) := by exact_mod_cast hnow
      linarith
    rw [max_eq_left (le_of_lt hlt), min_eq_right (by norm_num)]

/-! ### C2: active-milestone selection -/

lemma head?_orderedInsert (key : TimedMilestone → ℤ) (a : TimedMilestone) :
    ∀ l : List TimedMilestone,
      (List.orderedInsert (keyLE key) a l).head? =
        some (l.head?.elim a (fun b => if key a ≤ key b then a else b))
  | [] => rfl
  | b :: bs => by
    by_cases h : key a ≤ key b
    · simp [List.orderedInsert, keyLE, h]
    · simp [List.orderedInsert, keyLE, h]

lemma head?_sortBy (key : TimedMilestone → ℤ) :
    ∀ l : List TimedMilestone, (sortBy key l).head? = firstMinBy key l
  | [] => rfl
  | x :: xs => by
    have ih := head?_sortBy key xs
    show (List.orderedInsert (keyLE key) x (sortBy key xs)).head? = _
    rw [head?_orderedInsert, ih]
    cases h : firstMinBy key xs with
    | none => simp [firstMinBy, h]
    | some a =>
      by_cases hlt : key a < key x
      · simp [firstMinBy, h, hlt, not_le.mpr hlt]
      · simp [firstMinBy, h, hlt, not_lt.mp hlt]

lemma firstMinBy_none_iff (key : TimedMilestone → ℤ) :
    ∀ l : List TimedMilestone, firstMinBy key l = none ↔ l = []
  | [] => by simp [firstMinBy]
  | x :: xs => by
    cases h : firstMinBy key xs with
    | none => simp [firstMinBy, h]
    | some a =>
      by_cases hlt : key a < key x
      · simp [firstMinBy, h, hlt]
      · simp [firstMinBy, h, hlt]

lemma firstMinBy_mem_min (key : TimedMilestone → ℤ) :
    ∀ l : List TimedMilestone, ∀ a, firstMinBy key l = some a →
      a ∈ l ∧ ∀ x ∈ l, key a ≤ key x
  | [] => by intro a h; simp [firstMinBy] at h
  | x :: xs => by
    intro a h
    cases hxs : firstMinBy key xs with
    | none =>
      have hnil : xs = [] := (firstMinBy_none_iff key xs).mp hxs
      subst hnil
      simp [firstMinBy] at h
      subst h
      simp
    | some b =>
      have ih := firstMinBy_mem_min key xs b hxs
      by_cases hlt : key b < key x
      · simp [firstMinBy, hxs, hlt] at h
        subst h
        refine ⟨List.mem_cons_of_mem _ ih.1, ?_⟩
        intro y hy
        rcases List.mem_cons.mp hy with rfl | hy
        · exact le_of_lt hlt
        · exact ih.2 y hy
      · simp [firstMinBy, hxs, hlt] at h
        subst h
        refine ⟨List.mem_cons_self _ _, ?_⟩
        intro y hy
        rcases List.mem_cons.mp hy with rfl | hy
        · exact le_refl _
        · exact le_trans (not_lt.mp hlt) (ih.2 y hy)

lemma firstMinBy_first (key : TimedMilestone → ℤ) :
    ∀ l : List TimedMilestone, ∀ a, firstMinBy key l = some a →
      ∃ pre post, l = pre ++ a :: post ∧ ∀ x ∈ pre, key a < key x
  | [] => by intro a h; simp [firstMinBy] at h
  | x :: xs => by
    intro a h
    cases hxs : firstMinBy key xs with
    | none =>
      have hnil : xs = [] := (firstMinBy_none_iff key xs).mp hxs
      subst hnil
      simp [firstMinBy] at h
      subst h
      exact ⟨[], [], rfl, by simp⟩
    | some b =>
      by_cases hlt : key b < key x
      · simp [firstMinBy, hxs, hlt] at h
        obtain ⟨pre, post, hsplit, hpre⟩ := firstMinBy_first key xs b hxs
        subst h
        refine ⟨x :: pre, post, by simp [hsplit], ?_⟩
        intro y hy
        rcases List.mem_cons.mp hy with rfl | hy
        · exact hlt
        · exact hpre y hy
      · simp [firstMinBy, hxs, hlt] at h
        subst h
        exact ⟨[], xs, rfl, by simp⟩

lemma orderedInsert_eq_cons (key : TimedMilestone → ℤ) (a : TimedMilestone) :
    ∀ l : List TimedMilestone, (∀ c ∈ l, key a ≤ key c) →
      List.orderedInsert (keyLE key) a l = a :: l
  | [] => fun _ => rfl
  | c :: cs => fun h => by
    have : keyLE key a c := h c (List.mem_cons_self _ _)
    simp [List.orderedInsert, this]

lemma filter_orderedInsert (key : TimedMilestone → ℤ) (p : TimedMilestone → Bool)
    (a : TimedMilestone) :
    ∀ l : List TimedMilestone, List.Pairwise (keyLE key) l →
      (List.orderedInsert (keyLE key) a l).filter p =
        if p a then List.orderedInsert (keyLE key) a (l.filter p) else l.filter p
  | [] => by
    intro _
    by_cases hpa : p a
    · simp [List.orderedInsert, hpa]
    · simp [List.orderedInsert, hpa]
  | b :: bs => by
    intro hsorted
    have hb : ∀ c ∈ bs, keyLE key b c := fun c hc => (List.pairwise_cons.mp hsorted).1 c hc
    have hbs : List.Pairwise (keyLE key) bs := (List.pairwise_cons.mp hsorted).2
    by_cases hab : key a ≤ key b
    · rw [List.orderedInsert, if_pos (show keyLE key a b from hab)]
      by_cases hpa : p a
      · rw [if_pos hpa]
        have hmem : ∀ c ∈ (b :: bs).filter p, key a ≤ key c := by
          intro c hc
          have hc' := List.mem_of_mem_filter hc
          rcases List.mem_cons.mp hc' with rfl | hc''
          · exact hab
          · exact le_trans hab (hb c hc'')
        rw [orderedInsert_eq_cons key a _ hmem]
        simp [List.filter_cons, hpa]
      · rw [if_neg hpa]
        simp [List.filter_cons, hpa]
    · rw [List.orderedInsert, if_neg (show ¬ keyLE key a b from hab)]
      have ih := filter_orderedInsert key p a bs hbs
      by_cases hpa : p a
      · by_cases hpb : p b
        · simp [List.filter_cons, hpa, hpb, ih, List.orderedInsert,
            show ¬ keyLE key a b from hab]
        · simp [List.filter_cons, hpa, hpb, ih]
      · by_cases hpb : p b
        · simp [List.filter_cons, hpa, hpb, ih]
        · simp [List.filter_cons, hpa, hpb, ih]

lemma filter_sortBy (key : TimedMilestone → ℤ) (p : TimedMilestone → Bool) :
    ∀ l : List TimedMilestone, (sortBy key l).filter p = sortBy key (l.filter p)
  | [] => rfl
  | x :: xs => by
    have hsorted : List.Pairwise (keyLE key) (sortBy key xs) :=
      List.sorted_insertionSort (keyLE key) xs
    show (List.orderedInsert (keyLE key) x (sortBy key xs)).filter p = _
    rw [filter_orderedInsert key p x _ hsorted, filter_sortBy key p xs]
    by_cases hpx : p x
    · simp only [hpx, if_true, List.filter_cons]
      rfl
    · simp only [hpx, if_false, List.filter_cons]
      rfl

/-- C2: for every milestone set and every now, both active-milestone
computations (`Dashboard`'s sort-then-filter and `Focus`'s filter-then-sort)
return, among the milestones with `status ≠ completed` and `targetTime >
now`, the one with the smallest `targetTime`, exact-timestamp ties broken by
the original input order; both equal the same function of the set and `now`,
so re-running selection on an unchanged set is deterministic; and when no
milestone passes the filter there is no active milestone. -/
theorem active_milestone_selection (milestones : List TimedMilestone) (now : ℤ) :
    activeDashboard milestones now = specActiveMilestone milestones now
  ∧ activeFocus milestones now = specActiveMilestone milestones now
  ∧ (specActiveMilestone milestones now = none ↔
      milestones.filter (eligibleB now) = [])
  ∧ ∀ a, specActiveMilestone milestones now = some a →
      a ∈ milestones ∧ eligibleB now a = true
      ∧ (∀ m ∈ milestones, eligibleB now m = true → a.time ≤ m.time)
      ∧ ∃ pre post, milestones.filter (eligibleB now) = pre ++ a :: post
          ∧ ∀ m ∈ pre, a.time < m.time := by
  refine ⟨?_, ?_, ?_, ?_⟩
  · unfold activeDashboard specActiveMilestone
    rw [filter_sortBy, head?_sortBy]
  · unfold activeFocus specActiveMilestone
    rw [head?_sortBy]
  · unfold specActiveMilestone
    exact firstMinBy_none_iff _ _
  · intro a ha
    unfold specActiveMilestone at ha
    obtain ⟨hmem, hmin⟩ := firstMinBy_mem_min _ _ a ha
    obtain ⟨pre, post, hsplit, hpre⟩ := firstMinBy_first _ _ a ha
    refine ⟨List.mem_of_mem_filter hmem, List.of_mem_filter hmem, ?_, pre, post, hsplit, hpre⟩
    intro m hm helig
    exact hmin m (List.mem_filter_of_mem hm helig)

/-! ### C10: toggling an absent id is a no-op -/

/-- A concrete milestone used to instantiate hypotheses at the witnesses. -/
def sampleMilestone : Milestone :=
  { id := "1", title := "Firma", description := "Notaría Central",
    datetimeISO := "2026-02-09T10:00", icon := "history_edu",
    imageUrl := "/images/signing.svg", status := "upcoming",
    createdAt := "2025-01-01T00:00:00.000Z" }

/-- C10: for every id not present in the current milestone set,
`toggleComplete` issues no store update call, and the milestone set is left
unchanged. -/
theorem toggle_absent_id_noop (milestones : List Milestone) (id : String)
    (h : ∀ m ∈ milestones, m.id ≠ id) :
    toggleComplete milestones id = none
  ∧ applyToggle milestones (toggleComplete milestones id) = milestones := by
  have hfind : milestones.find? (fun m => m.id == id) = none := by
    apply List.find?_eq_none.mpr
    intro m hm
    simp [h m hm]
  constructor
  · unfold toggleComplete
    rw [hfind]
  · unfold applyToggle toggleComplete
    rw [hfind]

/-- Witness for C10 at a concrete set and a concrete absent id. -/
theorem toggle_absent_id_noop_witness :
    toggleComplete [sampleMilestone] "2" = none
  ∧ applyToggle [sampleMilestone] (toggleComplete [sampleMilestone] "2")
      = [sampleMilestone] :=
  toggle_absent_id_noop [sampleMilestone] "2" (by decide)

/-! ### C9: statuses written by the operations -/

/-- C9 counterexample: normalization does not restrict the status it writes —
an input record carrying `status: 'active'` (well-typed for
`Partial<Milestone>`, and reachable through import) is passed through
verbatim, so the normalized record written to the store has status
`'active'`, which is neither `'upcoming'` nor `'completed'`. -/
theorem normalize_passes_active_through :
    (normalizeMilestone "1700000000000" "2023-11-14T22:13:20.000Z"
      { status := some "active" }).status = "active" ∧ "active" ≠ "upcoming"
  ∧ "active" ≠ "completed" := by
  refine ⟨rfl, by decide, by decide⟩

/-- C9 as amended: toggling maps `'completed'` to `'upcoming'` and every
other status to `'completed'`, so it only ever writes those two values;
creation (the editor's fresh-milestone template) and normalization of a
record with a missing or empty status assign `'upcoming'`; but normalization
passes a nonempty input status through verbatim, and the editor save writes
the edited record's status unchanged — so `'active'` is never introduced by
these operations, yet survives them when present in their input. -/
theorem status_writes (milestones : List Milestone) (id : String)
    (m isEditing : Milestone) (nowId nowIso : String) (input : PartialMilestone) :
    (∀ u ∈ toggleComplete milestones id, u.2 = "upcoming" ∨ u.2 = "completed")
  ∧ (milestones.find? (fun x => x.id == id) = some m →
      toggleComplete milestones id =
        some (id, if m.status == "completed" then "upcoming" else "completed"))
  ∧ (input.status = none → (normalizeMilestone nowId nowIso input).status = "upcoming")
  ∧ (∀ s, input.status = some s →
      (normalizeMilestone nowId nowIso input).status = if s = "" then "upcoming" else s)
  ∧ (newMilestoneTemplate nowId nowIso).status = "upcoming"
  ∧ (handleSave milestones isEditing).data.status = isEditing.status := by
  refine ⟨?_, ?_, ?_, ?_, rfl, ?_⟩
  · intro u hu
    unfold toggleComplete at hu
    cases hfind : milestones.find? (fun x => x.id == id) with
    | none => rw [hfind] at hu; simp at hu
    | some w =>
      rw [hfind] at hu
      simp only [Option.mem_def, Option.some.injEq] at hu
      subst hu
      by_cases hw : w.status == "completed"
      · left; simp [hw]
      · right; simp [hw]
  · intro hfind
    unfold toggleComplete
    rw [hfind]
  · intro hnone
    unfold normalizeMilestone jsOr
    rw [hnone]
  · intro s hs
    unfold normalizeMilestone jsOr
    rw [hs]
  · unfold handleSave
    by_cases hf : (milestones.find? (fun x => x.id == isEditing.id)).isSome
    · rw [if_pos hf]; rfl
    · rw [if_neg hf]; rfl

/-! ### C4: normalization totality and output invariants -/

lemma jsOr_ne_empty (v : Option String) (d : String) (hd : d ≠ "") :
    jsOr v d ≠ "" := by
  cases v with
  | none => exact hd
  | some s =>
    by_cases h : s = ""
    · simp only [jsOr, h, if_true]
      exact hd
    · simp only [jsOr, h, if_false]
      exact h

/-- C4 counterexample: `normalize` applied to the empty input record yields a
milestone whose `targetTime` (`datetimeISO`) is the empty string, which is
not parseable as a timestamp — so not every output of `normalize` satisfies
the §3 parseability invariant as the claim states. -/
theorem normalize_empty_unparsable_target :
    (normalizeMilestone "1700000000000" "2023-11-14T22:13:20.000Z" {}).datetimeISO = ""
  ∧ parseableTimestamp "" = false := by
  refine ⟨rfl, rfl⟩

/-- C4 as amended: `normalize` is total (it is a total function of any
partially-populated input, the empty record included) and every output has
nonempty `id`, `title`, `icon`, `imageRef` and `status` (concrete defaults
substituted for missing/empty fields) and a nonempty `createdAt`; but
`targetTime` is passed through unvalidated — a missing `targetTime` becomes
the empty string, which is not parseable (per §3 such an entity is excluded
from time-ordering at use, not rejected). -/
theorem normalize_total_defaults (nowId nowIso : String) (input : PartialMilestone)
    (hId : nowId ≠ "") (hIso : nowIso ≠ "") :
    (normalizeMilestone nowId nowIso input).id ≠ ""
  ∧ (normalizeMilestone nowId nowIso input).title ≠ ""
  ∧ (normalizeMilestone nowId nowIso input).icon ≠ ""
  ∧ (normalizeMilestone nowId nowIso input).imageUrl ≠ ""
  ∧ (normalizeMilestone nowId nowIso input).status ≠ ""
  ∧ (normalizeMilestone nowId nowIso input).createdAt ≠ ""
  ∧ (normalizeMilestone nowId nowIso input).datetimeISO = jsOr input.datetimeISO "" := by
  refine ⟨jsOr_ne_empty _ _ hId, jsOr_ne_empty _ _ (by decide),
    jsOr_ne_empty _ _ (by decide), jsOr_ne_empty _ _ (by decide),
    jsOr_ne_empty _ _ (by decide), jsOr_ne_empty _ _ hIso, rfl⟩

/-- Witness for C4's amended theorem at concrete host clock strings and the
empty input record. -/
theorem normalize_total_defaults_witness :
    (normalizeMilestone "1700000000000" "2023-11-14T22:13:20.000Z" {}).id ≠ ""
  ∧ (normalizeMilestone "1700000000000" "2023-11-14T22:13:20.000Z" {}).title ≠ ""
  ∧ (normalizeMilestone "1700000000000" "2023-11-14T22:13:20.000Z" {}).icon ≠ ""
  ∧ (normalizeMilestone "1700000000000" "2023-11-14T22:13:20.000Z" {}).imageUrl ≠ ""
  ∧ (normalizeMilestone "1700000000000" "2023-11-14T22:13:20.000Z" {}).status ≠ ""
  ∧ (normalizeMilestone "1700000000000" "2023-11-14T22:13:20.000Z" {}).createdAt ≠ ""
  ∧ (normalizeMilestone "1700000000000" "2023-11-14T22:13:20.000Z" {}).datetimeISO
      = jsOr ({} : PartialMilestone).datetimeISO "" :=
  normalize_total_defaults "1700000000000" "2023-11-14T22:13:20.000Z" {}
    (by decide) (by decide)

/-! ### C5: the migration sentinel protocol -/

/-- C5: the migration follows the sentinel protocol — with the flag already
set it performs zero store creations regardless of the local cache; with the
flag unset and a parsed local array whose creations all succeed it creates
exactly one record per cached milestone, each with its local identifier
stripped; and in every case (flag set or unset, cache absent, unparsable, of
any shape, creations failing at any point) the flag is set after the run. -/
theorem migration_sentinel (flag : Bool) (localData : LocalData)
    (failAt : Option ℕ) (items : List JsonValue) :
    (handleMigration true localData failAt).1 = []
  ∧ (handleMigration false (.parsed (.arr items)) none).1 = items.map jsonStripId
  ∧ (handleMigration flag localData failAt).2 = true := by
  refine ⟨rfl, ?_, ?_⟩
  · show (if (0 : ℕ) < items.length then
        (items.map jsonStripId).take ((none : Option ℕ).getD items.length)
      else []) = items.map jsonStripId
    cases items with
    | nil => rfl
    | cons y ys =>
      rw [if_pos (by simp)]
      show ((y :: ys).map jsonStripId).take (y :: ys).length = _
      rw [← List.length_map (y :: ys) jsonStripId, List.take_length]
  · cases flag with
    | true => rfl
    | false => rfl

/-! ### C6: import shape validation -/

/-- C6: `handleImport` succeeds exactly on a bare array payload or a
container object whose `milestones` field is an array; on every other shape
(e.g. the bare number `5`) it reports the validation error and performs zero
store creations — the creation loop is never reached before the shape check
passes. -/
theorem import_shape_validation (parsed : JsonValue) (nowId nowIso : String) :
    ((handleImport parsed nowId nowIso).2 = none ↔ specImportAccepted parsed)
  ∧ ((handleImport parsed nowId nowIso).2 ≠ none →
      (handleImport parsed nowId nowIso).1 = [])
  ∧ handleImport (.num 5) nowId nowIso =
      ([], some "No se pudo importar el archivo. Verifica que sea un backup válido.") := by
  refine ⟨?_, ?_, rfl⟩
  · unfold handleImport specImportAccepted jsGetMilestones
    cases parsed with
    | null => simp
    | bool b => simp
    | num q => simp
    | str s => simp
    | arr items => simp
    | obj fields =>
      cases hlk : fields.lookup "milestones" with
      | none => simp [hlk]
      | some v => cases v <;> simp [hlk]
  · intro hne
    unfold handleImport at hne ⊢
    cases h : jsGetMilestones parsed with
    | none => rfl
    | some data =>
      rw [h] at hne
      simp at hne

/-! ### C7: export-then-import round-trip -/

/-- The `(title, description, targetTime, icon, status)` tuple of a record,
the identity the round-trip property compares. -/
def tuple5 (m : Milestone) : String × String × String × String × String :=
  (m.title, m.description, m.datetimeISO, m.icon, m.status)

lemma jsOr_some_ne (s d : String) (h : s ≠ "") : jsOr (some s) d = s := by
  simp [jsOr, h]

lemma jsOr_some_empty_default (s : String) : jsOr (some s) "" = s := by
  by_cases h : s = ""
  · simp [jsOr, h]
  · simp [jsOr, h]

lemma toPartial_milestoneToJson (m : Milestone) :
    toPartial (milestoneToJson m) =
      { id := some m.id, title := some m.title, description := some m.description,
        datetimeISO := some m.datetimeISO, icon := some m.icon,
        imageUrl := some m.imageUrl, status := some m.status,
        createdAt := some m.createdAt } := rfl

lemma tuple5_normalize_roundtrip (nowId nowIso : String) (m : Milestone)
    (h1 : m.title ≠ "") (h2 : m.icon ≠ "") (h3 : m.status ≠ "") :
    tuple5 (normalizeMilestone nowId nowIso (toPartial (milestoneToJson m)))
      = tuple5 m := by
  rw [toPartial_milestoneToJson]
  unfold normalizeMilestone tuple5
  simp only [jsOr_some_ne _ _ h1, jsOr_some_ne _ _ h2, jsOr_some_ne _ _ h3,
    jsOr_some_empty_default]

/-- C7 as amended: for every milestone set in which each record's `title`,
`icon` and `status` are nonempty — which holds for every record that ever
passed normalization, since it fills those fields with nonempty defaults —
exporting the set and re-importing the exported document yields records with
exactly the same `(title, description, targetTime, icon, status)` tuples,
in order, irrespective of identifiers; a record with an empty (falsy) such
field instead has it replaced by the default on re-import. -/
theorem export_import_roundtrip (milestones : List Milestone) (nowId nowIso : String)
    (h : ∀ m ∈ milestones, m.title ≠ "" ∧ m.icon ≠ "" ∧ m.status ≠ "") :
    ((handleImport (handleExport milestones) nowId nowIso).1).map tuple5
      = milestones.map tuple5
  ∧ (handleImport (handleExport milestones) nowId nowIso).2 = none := by
  have hget : jsGetMilestones (handleExport milestones)
      = some (milestones.map milestoneToJson) := rfl
  constructor
  · unfold handleImport
    rw [hget]
    simp only [List.map_map]
    apply List.map_congr_left
    intro m hm
    exact tuple5_normalize_roundtrip nowId nowIso m (h m hm).1 (h m hm).2.1 (h m hm).2.2
  · unfold handleImport
    rw [hget]

/-- Witness for C7's amended theorem at a concrete one-element set. -/
theorem export_import_roundtrip_witness :
    ((handleImport (handleExport [sampleMilestone]) "9" "2025-06-01T00:00:00.000Z").1).map tuple5
      = [sampleMilestone].map tuple5
  ∧ (handleImport (handleExport [sampleMilestone]) "9" "2025-06-01T00:00:00.000Z").2 = none :=
  export_import_roundtrip [sampleMilestone] "9" "2025-06-01T00:00:00.000Z" (by decide)

/-- A stored milestone with an empty (falsy) title: the "Add New" editor
template starts with an empty title, and the migration writes local-cache
records to the store verbatim, so such records are representable. -/
def emptyTitleMilestone : Milestone :=
  { id := "7", title := "", description := "Sede Principal - Piso 4",
    datetimeISO := "2026-02-09T10:00", icon := "flag",
    imageUrl := "/images/placeholder.svg", status := "upcoming",
    createdAt := "2025-01-01T00:00:00.000Z" }

/-- C7 counterexample: exporting a set containing a record with an empty
title and re-importing it does not preserve the
`(title, description, targetTime, icon, status)` tuple — normalization
replaces the empty title with the `'Nuevo hito'` placeholder. -/
theorem export_import_roundtrip_cex :
    ((handleImport (handleExport [emptyTitleMilestone]) "1" "2024-01-01T00:00:00.000Z").1).map tuple5
      ≠ [emptyTitleMilestone].map tuple5 := by
  decide

/-! ### C8: aggregate progress -/

lemma pairwise_getLast_max (key : TimedMilestone → ℤ) :
    ∀ (l : List TimedMilestone) (m : TimedMilestone),
      List.Pairwise (keyLE key) l → l.getLast? = some m →
        m ∈ l ∧ ∀ x ∈ l, key x ≤ key m
  | [], m => by
    intro _ h
    simp at h
  | [a], m => by
    intro _ h
    simp at h
    subst h
    refine ⟨by simp, ?_⟩
    intro x hx
    rcases List.mem_singleton.mp hx with rfl
    exact le_refl _
  | a :: b :: t, m => by
    intro hp h
    rw [List.getLast?_cons_cons] at h
    obtain ⟨hmem, hmax⟩ :=
      pairwise_getLast_max key (b :: t) m (List.pairwise_cons.mp hp).2 h
    refine ⟨List.mem_cons_of_mem _ hmem, ?_⟩
    intro x hx
    rcases List.mem_cons.mp hx with rfl | hx
    · exact (List.pairwise_cons.mp hp).1 m hmem
    · exact hmax x hx

lemma statsOf_cons (x : TimedMilestone) (xs : List TimedMilestone) (now : ℤ) :
    statsOf (x :: xs) now =
      { total := (x :: xs).length,
        completed := ((x :: xs).filter (fun m => m.status == "completed")).length,
        percentage :=
          if 0 < ((sortBy (fun m => m.time) (x :: xs)).getLast?.getD x).time
              - ((sortBy (fun m => m.createdAt) (x :: xs)).head?.getD x).createdAt then
            min 100 (max 0 (jsRound (((now : ℚ)
              - (((sortBy (fun m => m.createdAt) (x :: xs)).head?.getD x).createdAt : ℚ))
              / ((((sortBy (fun m => m.time) (x :: xs)).getLast?.getD x).time
                - ((sortBy (fun m => m.createdAt) (x :: xs)).head?.getD x).createdAt : ℤ) : ℚ)
              * 100)))
          else 100,
        lastDate := some ((sortBy (fun m => m.time) (x :: xs)).getLast?.getD x).time } :=
  rfl

/-- C8 counterexample: at `now = 1000` over the single milestone with
`createdAt = 0` and `targetTime = 200000` (milliseconds), aggregate progress
is `Math.round(0.5) = 1` percent, while the per-milestone fraction formula
at the same start/end/now gives `0.5` percent — the aggregate does not use
the same fraction formula as per-milestone progress, it rounds. -/
theorem aggregate_progress_rounds_cex :
    (((statsOf [{ time := 200000, createdAt := 0, status := "upcoming" }] 1000).percentage : ℤ) : ℚ)
      ≠ specProgress 0 200000 1000 := by
  have h1 : (statsOf [{ time := 200000, createdAt := 0, status := "upcoming" }] 1000).percentage
      = 1 := by
    rw [statsOf_cons]
    show (if (0:ℤ) < 200000 - 0 then
        min 100 (max 0 (jsRound (((1000 : ℚ) - ((0:ℤ) : ℚ)) / (((200000 - 0 : ℤ)) : ℚ) * 100)))
      else 100) = 1
    rw [if_pos (by norm_num)]
    have harg : ((1000 : ℚ) - ((0:ℤ) : ℚ)) / (((200000 - 0 : ℤ)) : ℚ) * 100 + 1/2 = 1 := by
      push_cast
      norm_num
    unfold jsRound
    rw [harg, Int.floor_one]
    norm_num
  have h2 : specProgress 0 200000 1000 = 1/2 := by
    unfold specProgress
    rw [if_neg (by push_cast; norm_num)]
    push_cast
    norm_num
  rw [h1, h2]
  norm_num

/-- C8 as amended: aggregate progress over a non-empty set is computed with
start = the earliest `createdAt` across all milestones and end = the latest
`targetTime`, using the per-milestone fraction formula with the percentage
rounded to the nearest integer before clamping to [0, 100] (and defined as
100 when end − start ≤ 0), sampled at `now`; for the empty set aggregate
progress is 0 and no end is reported. -/
theorem aggregate_progress_spec (milestones : List TimedMilestone) (now : ℤ) :
    statsOf [] now = { total := 0, completed := 0, percentage := 0, lastDate := none }
  ∧ ∀ x xs, milestones = x :: xs →
      (statsOf milestones now).total = milestones.length
    ∧ (statsOf milestones now).completed
        = (milestones.filter (fun m => m.status == "completed")).length
    ∧ ∃ start endT,
        (∃ a ∈ milestones, a.createdAt = start)
      ∧ (∀ a ∈ milestones, start ≤ a.createdAt)
      ∧ (∃ b ∈ milestones, b.time = endT)
      ∧ (∀ a ∈ milestones, a.time ≤ endT)
      ∧ (statsOf milestones now).lastDate = some endT
      ∧ (statsOf milestones now).percentage = specAggregatePercentage start endT now := by
  refine ⟨rfl, ?_⟩
  intro x xs hms
  subst hms
  obtain ⟨a, ha⟩ : ∃ a, firstMinBy (fun m => m.createdAt) (x :: xs) = some a := by
    cases h' : firstMinBy (fun m => m.createdAt) (x :: xs) with
    | none => exact absurd ((firstMinBy_none_iff _ _).mp h') (by simp)
    | some a => exact ⟨a, rfl⟩
  have haHead : (sortBy (fun m => m.createdAt) (x :: xs)).head? = some a := by
    rw [head?_sortBy]
    exact ha
  obtain ⟨haMem, haMin⟩ := firstMinBy_mem_min _ _ a ha
  have hne : sortBy (fun m => m.time) (x :: xs) ≠ [] := by
    intro hcon
    have hlen := (List.perm_insertionSort (keyLE (fun m => m.time)) (x :: xs)).length_eq
    rw [show List.insertionSort (keyLE (fun m => m.time)) (x :: xs)
        = sortBy (fun m => m.time) (x :: xs) from rfl, hcon] at hlen
    simp at hlen
  obtain ⟨b, hb⟩ : ∃ b, (sortBy (fun m => m.time) (x :: xs)).getLast? = some b :=
    ⟨_, List.getLast?_eq_getLast_of_ne_nil hne⟩
  have hbSort : b ∈ sortBy (fun m => m.time) (x :: xs) := by
    rw [List.getLast?_eq_getLast_of_ne_nil hne] at hb
    rw [← Option.some.inj hb]
    exact List.getLast_mem hne
  have hbMem : b ∈ (x :: xs) :=
    (List.perm_insertionSort (keyLE (fun m => m.time)) (x :: xs)).mem_iff.mp hbSort
  have hbMax : ∀ y ∈ (x :: xs), y.time ≤ b.time := by
    intro y hy
    have hysort : y ∈ sortBy (fun m => m.time) (x :: xs) :=
      (List.perm_insertionSort (keyLE (fun m => m.time)) (x :: xs)).mem_iff.mpr hy
    exact (pairwise_getLast_max (fun m => m.time) _ b
      (List.sorted_insertionSort (keyLE (fun m => m.time)) (x :: xs)) hb).2 y hysort
  have hhead : (sortBy (fun m => m.createdAt) (x :: xs)).head?.getD x = a := by
    rw [haHead]
    rfl
  have hlast : (sortBy (fun m => m.time) (x :: xs)).getLast?.getD x = b := by
    rw [hb]
    rfl
  refine ⟨rfl, rfl, a.createdAt, b.time, ⟨a, haMem, rfl⟩, haMin, ⟨b, hbMem, rfl⟩, hbMax, ?_, ?_⟩
  · rw [statsOf_cons]
    show some ((sortBy (fun m => m.time) (x :: xs)).getLast?.getD x).time = some b.time
    rw [hlast]
  · rw [statsOf_cons]
    show (if 0 < ((sortBy (fun m => m.time) (x :: xs)).getLast?.getD x).time
        - ((sortBy (fun m => m.createdAt) (x :: xs)).head?.getD x).createdAt then
        min 100 (max 0 (jsRound (((now : ℚ)
          - (((sortBy (fun m => m.createdAt) (x :: xs)).head?.getD x).createdAt : ℚ))
          / ((((sortBy (fun m => m.time) (x :: xs)).getLast?.getD x).time
            - ((sortBy (fun m => m.createdAt) (x :: xs)).head?.getD x).createdAt : ℤ) : ℚ)
          * 100)))
      else 100) = specAggregatePercentage a.createdAt b.time now
    rw [hhead, hlast]
    unfold specAggregatePercentage
    rcases lt_or_le 0 (b.time - a.createdAt) with hpos | hnonpos
    · rw [if_pos hpos, if_neg (by rw [not_le]; exact_mod_cast hpos)]
      have harg : ((now : ℚ) - (a.createdAt : ℚ)) / (((b.time - a.createdAt : ℤ)) : ℚ) * 100
          = ((b.time : ℚ) - (a.createdAt : ℚ) - ((b.time : ℚ) - (now : ℚ)))
            / ((b.time : ℚ) - (a.createdAt : ℚ)) * 100 := by
        push_cast
        ring_nf
      rw [harg]
    · have hq : ((b.time : ℚ) - (a.createdAt : ℚ)) ≤ 0 := by
        exact_mod_cast hnonpos
      rw [if_neg (not_lt.mpr hnonpos), if_pos hq]

end Countdown
